import Mathlib

/-!
Verification of the payload compression layer (`xpra/net/compression.py`).

The module is embedded shallowly: byte strings are `List Nat`, the external
compression libraries (lz4, zlib, brotli) are parameters given as structures
of functions, and every wrapper, shim and dispatcher of the source module is
translated as a Lean function.  Exceptions raised by the Python code are
modelled with `Except` / `Option` results.
-/

namespace Xpra

/-- Byte strings are modelled as lists of naturals. -/
abbrev Bytes := List Nat

/-- Modelled from the spec: the flag-bit constants imported from
`xpra.net.header`, which is not part of the sources at hand.  The spec
requires reserved, non-overlapping per-algorithm flag bits outside the 4-bit
level range (levels 0-15), with generic-deflate (zlib) using the bare level
(its flag region is implicit).  Bit 4 is the fast-block-codec (lz4) flag and
bit 6 the high-ratio-codec (brotli) flag. -/
def LZ4_FLAG : Nat := 16

/-- Modelled from the spec: the high-ratio-codec (brotli) flag bit, see
`LZ4_FLAG`. -/
def BROTLI_FLAG : Nat := 64

/-- Modelled from the spec: generic-deflate (zlib) uses the bare level, so
its flag constant is zero. -/
def ZLIB_FLAG : Nat := 0

/-- All the compressors the module knows about, in best compatibility
order (`ALL_COMPRESSORS` in the source). -/
def ALL_COMPRESSORS : List String := ["lz4", "zlib", "brotli", "none"]

/-- Order for performance (`PERFORMANCE_ORDER` in the source). -/
def PERFORMANCE_ORDER : List String := ["none", "lz4", "zlib", "brotli"]

/-- Performance order with compression required, disallowing the "none"
pseudo-backend (`PERFORMANCE_COMPRESSION` in the source). -/
def PERFORMANCE_COMPRESSION : List String := ["lz4", "zlib", "brotli"]

/-- The `Compression` namedtuple of the source: one codec descriptor.
`compress` maps a packet and a level to a `(tag, bytes)` pair; `decompress`
maps bytes to bytes, `none` modelling a raised exception.  The two version
fields of the namedtuple carry no behaviour and are kept as opaque data. -/
structure Compression where
  name : String
  version : Option String := none
  python_version : Option String := none
  compress : Bytes → Nat → Nat × Bytes
  decompress : Bytes → Option Bytes

/-- The external lz4 library (`xpra.net.lz4`): `compress packet acceleration`
and `decompress data max_size`, the latter failing (`none`) on invalid input
or when the output would exceed `max_size`. -/
structure LZ4Lib where
  compress : Bytes → Nat → Bytes
  decompress : Bytes → Nat → Option Bytes

/-- The external zlib library: `compress packet level`, and the
`decompressobj` call `d.decompress(data, max_length)` which either raises
(`none`) or returns the decompressed value together with the unconsumed
tail of the input left over once `max_length` output bytes were produced. -/
structure ZlibLib where
  compress : Bytes → Nat → Bytes
  decompressObj : Bytes → Nat → Option (Bytes × Bytes)

/-- The external brotli library (either `xpra.net.brotli.*` or the plain
`brotli` module): `compress packet quality` and `decompress data`. -/
structure BrotliLib where
  compress : Bytes → Nat → Bytes
  decompress : Bytes → Option Bytes

/-- `lz4_compress` from `init_lz4`:
`flag = min(15, level) | LZ4_FLAG`, compress with
`acceleration = max(0, 5 - level // 3)`. -/
def lz4_compress (L : LZ4Lib) (packet : Bytes) (level : Nat) : Nat × Bytes :=
  let flag := min 15 level ||| LZ4_FLAG
  (flag, L.compress packet (max 0 (5 - level / 3)))

/-- `lz4_decompress` from `init_lz4`:
`decompress(data, max_size=MAX_DECOMPRESSED_SIZE)`. -/
def lz4_decompress (L : LZ4Lib) (max_decompressed_size : Nat) (data : Bytes) :
    Option Bytes :=
  L.decompress data max_decompressed_size

/-- The descriptor built by `init_lz4`. -/
def init_lz4 (L : LZ4Lib) (max_decompressed_size : Nat) : Compression :=
  { name := "lz4"
    compress := lz4_compress L
    decompress := lz4_decompress L max_decompressed_size }

/-- `brotli_compress_shim` from `init_brotli`: clamp the level to 9 for
packets over 1MiB and to 11 otherwise, and tag with `BROTLI_FLAG`.  (The
source's coercion of non-bytes packets to their string form is outside the
byte-string data model and is not represented.) -/
def brotli_compress_shim (B : BrotliLib) (packet : Bytes) (level : Nat) :
    Nat × Bytes :=
  let level := if packet.length > 1024 * 1024 then min 9 level else min 11 level
  (level ||| BROTLI_FLAG, B.compress packet level)

/-- The descriptor built by `init_brotli`: the decompress side is the
library's `decompress` unchanged, whether the library is the internal
`xpra.net.brotli.decompressor` or the plain `brotli` module fallback. -/
def init_brotli (B : BrotliLib) : Compression :=
  { name := "brotli"
    compress := brotli_compress_shim B
    decompress := B.decompress }

/-- `zlib_compress` from `init_zlib`: `level = min(9, max(1, level))`,
tag is `level + ZLIB_FLAG`. -/
def zlib_compress (Z : ZlibLib) (packet : Bytes) (level : Nat) : Nat × Bytes :=
  let level := min 9 (max 1 level)
  (level + ZLIB_FLAG, Z.compress packet level)

/-- `zlib_decompress` from `init_zlib`: decompress with
`MAX_DECOMPRESSED_SIZE` as `max_length`, then
`assert not d.unconsumed_tail` (a non-empty unconsumed tail raises, modelled
as `none`). -/
def zlib_decompress (Z : ZlibLib) (max_decompressed_size : Nat) (data : Bytes) :
    Option Bytes :=
  match Z.decompressObj data max_decompressed_size with
  | none => none
  | some (v, tail) => if tail.isEmpty then some v else none

/-- The descriptor built by `init_zlib`. -/
def init_zlib (Z : ZlibLib) (max_decompressed_size : Nat) : Compression :=
  { name := "zlib"
    compress := zlib_compress Z
    decompress := zlib_decompress Z max_decompressed_size }

/-- The `COMPRESSION` registry: a name-to-descriptor table with unique keys,
modelled as an association list. -/
abbrev Registry := List (String × Compression)

/-- Dictionary lookup `COMPRESSION.get(name)`. -/
def lookupCompression (R : Registry) (name : String) : Option Compression :=
  (R.find? (fun p => p.1 == name)).map (·.2)

/-- The payloads produced by `compressed_wrapper`: the `Compressed` class
(raw data) and the `LevelCompressed` class (compressed data carrying the
tag, stored in the `level` slot, and the algorithm name). -/
inductive Payload where
  | raw (datatype : String) (data : Bytes) (can_inline : Bool)
  | levelCompressed (datatype : String) (data : Bytes) (level : Nat)
      (algorithm : String) (can_inline : Bool)
  deriving Repr, DecidableEq

/-- The exceptions the module can raise, in the spec's taxonomy:
`payloadTooLarge` is the "uncompressed data is too large: %iMB, limit is
%iMB" exception of `compressed_wrapper` (carrying the two megabyte counts
interpolated into that message), `codecUnavailable` is the
`InvalidCompressionException("%s is not available")` of
`decompress_by_name`, and `decompressFailed` models an exception raised by
the selected backend's decompress function (such as the
"not all data was decompressed" assertion of `zlib_decompress`). -/
inductive CompressionError where
  | payloadTooLarge (size_mb limit_mb : Nat)
  | codecUnavailable (algo : String)
  | decompressFailed (algo : String)
  deriving Repr, DecidableEq

/-- The algorithm selection of `compressed_wrapper`:
`next(x for x in PERFORMANCE_COMPRESSION if kwargs.get(x) and x in
COMPRESSION)` followed by `COMPRESSION[algo]`, i.e. the first name in
`PERFORMANCE_COMPRESSION` that is both requested and registered, paired with
its descriptor. -/
def select_algo (R : Registry) (requested : String → Bool) :
    Option (String × Compression) :=
  PERFORMANCE_COMPRESSION.findSome? fun x =>
    if requested x then (lookupCompression R x).map (fun c => (x, c)) else none

/-- `compressed_wrapper(datatype, data, level=5, can_inline=True, **kwargs)`.
The keyword arguments are split into the requested-algorithm predicate
(`kwargs.get(x)` for algorithm names `x`) and `min_saving`
(`kwargs.get("min_saving", 0)`); `MIN_COMPRESS_SIZE` and
`MAX_DECOMPRESSED_SIZE` (imported from `xpra.common`, not among the sources
at hand) are passed as parameters. -/
def compressed_wrapper (min_compress_size max_decompressed_size : Nat)
    (R : Registry) (requested : String → Bool) (min_saving : Nat)
    (datatype : String) (data : Bytes) (level : Nat) (can_inline : Bool) :
    Except CompressionError Payload :=
  let size := data.length
  let no : Payload := .raw ("raw " ++ datatype) data can_inline
  if size ≤ min_compress_size then
    .ok no
  else if size > max_decompressed_size then
    .error (.payloadTooLarge (size / 1024 / 1024)
      (max_decompressed_size / 1024 / 1024))
  else
    match select_algo R requested with
    | none => .ok no
    | some (algo, c) =>
      let r := c.compress data level
      if r.2.length ≥ size + min_saving then .ok no
      else .ok (.levelCompressed datatype r.2 r.1 algo can_inline)

/-- `get_compression_type(level)`. -/
def get_compression_type (level : Nat) : String :=
  if level &&& LZ4_FLAG ≠ 0 then "lz4"
  else if level &&& BROTLI_FLAG ≠ 0 then "brotli"
  else "zlib"

/-- `decompress_by_name(data, algo)`. -/
def decompress_by_name (R : Registry) (data : Bytes) (algo : String) :
    Except CompressionError Bytes :=
  match lookupCompression R algo with
  | none => .error (.codecUnavailable algo)
  | some c =>
    match c.decompress data with
    | none => .error (.decompressFailed algo)
    | some v => .ok v

/-- `decompress(data, level)`: derive the algorithm from the flag bits of
the tag (lz4 flag first, then brotli flag, zlib otherwise) and dispatch. -/
def decompress (R : Registry) (data : Bytes) (level : Nat) :
    Except CompressionError Bytes :=
  let algo :=
    if level &&& LZ4_FLAG ≠ 0 then "lz4"
    else if level &&& BROTLI_FLAG ≠ 0 then "brotli"
    else "zlib"
  decompress_by_name R data algo

/-- Modelled from the spec: the spec's Header Flag Codec reads the level
back out of a tag.  The source never extracts the level (only the algorithm,
via `get_compression_type`); the spec bounds levels to 4 bits (0-15) with
flag bits outside that range, so the level is the low 4 bits of the tag. -/
def decode_level (tag : Nat) : Nat :=
  tag &&& 15

/-! Helper lemmas shared by the claim theorems. -/

/-- Bit facts about lz4 tags: for a 4-bit stored level, the lz4 flag bit is
set, the low 4 bits recover the stored level, and the brotli flag bit is
clear. -/
theorem lz4_tag_bits (a : Nat) (h : a ≤ 15) :
    (a ||| 16) &&& 16 ≠ 0 ∧ (a ||| 16) &&& 15 = a ∧ (a ||| 16) &&& 64 = 0 := by
  interval_cases a <;> decide

/-- Bit facts about brotli tags: the lz4 flag bit is clear, the brotli flag
bit is set, and the low 4 bits recover the stored level. -/
theorem brotli_tag_bits (a : Nat) (h : a ≤ 15) :
    (a ||| 64) &&& 16 = 0 ∧ (a ||| 64) &&& 64 ≠ 0 ∧ (a ||| 64) &&& 15 = a := by
  interval_cases a <;> decide

/-- Bit facts about zlib tags (a bare 4-bit level): both flag bits are clear
and the low 4 bits recover the level. -/
theorem zlib_tag_bits (a : Nat) (h : a ≤ 15) :
    a &&& 16 = 0 ∧ a &&& 64 = 0 ∧ a &&& 15 = a := by
  interval_cases a <;> decide

/-- Prepending the "raw " prefix always changes the datatype string. -/
theorem raw_datatype_ne (s : String) : ("raw " ++ s : String) ≠ s := by
  intro he
  have h := congrArg String.length he
  rw [String.length_append] at h
  have h4 : ("raw " : String).length = 4 := rfl
  omega

/-- If no name in `l` is both requested and registered, the selection scan
over `l` comes up empty. -/
theorem findSome_sel_none (R : Registry) (req : String → Bool)
    (l : List String)
    (h : ∀ x ∈ l, ¬(req x = true ∧ (lookupCompression R x).isSome = true)) :
    (l.findSome? fun x =>
      if req x then (lookupCompression R x).map (fun c => (x, c)) else none) =
      none := by
  induction l with
  | nil => rfl
  | cons a l ih =>
    have ha := h a (List.mem_cons_self a l)
    have hl := ih fun x hx => h x (List.mem_cons_of_mem a hx)
    rw [List.findSome?_cons]
    cases hreq : req a with
    | false => simpa [hreq] using hl
    | true =>
      have hnone : lookupCompression R a = none := by
        rcases hlook : lookupCompression R a with _ | c
        · rfl
        · exact absurd ⟨hreq, by rw [hlook]; rfl⟩ ha
      simpa [hreq, hnone] using hl

/-- If every name before `a` fails the requested-and-registered test while
`a` passes it, the selection scan returns `a` with its descriptor. -/
theorem findSome_sel_first (R : Registry) (req : String → Bool)
    (l₁ : List String) (a : String) (l₂ : List String)
    (hreq : req a = true) (c : Compression)
    (hc : lookupCompression R a = some c)
    (h₁ : ∀ b ∈ l₁, ¬(req b = true ∧ (lookupCompression R b).isSome = true)) :
    ((l₁ ++ a :: l₂).findSome? fun x =>
      if req x then (lookupCompression R x).map (fun c => (x, c)) else none) =
      some (a, c) := by
  induction l₁ with
  | nil =>
    rw [List.nil_append, List.findSome?_cons]
    simp [hreq, hc]
  | cons b l ih =>
    have hb := h₁ b (List.mem_cons_self b l)
    have hl := ih fun x hx => h₁ x (List.mem_cons_of_mem b hx)
    rw [List.cons_append, List.findSome?_cons]
    cases hreqb : req b with
    | false => simpa [hreqb] using hl
    | true =>
      have hnone : lookupCompression R b = none := by
        rcases hlook : lookupCompression R b with _ | d
        · rfl
        · exact absurd ⟨hreqb, by rw [hlook]; rfl⟩ hb
      simpa [hreqb, hnone] using hl

/-! Stub external libraries, used to evaluate the claim theorems on concrete
inputs.  `stubLZ4` "compresses" the 8-byte packet of sevens down to
the single byte `2` and prepends a `1` marker to every other packet, so both
the shrinking and the non-shrinking paths can be exercised; its decompress
side inverts this and honours `max_size`. -/

/-- Stub lz4 library with an invertible toy compression honouring
`max_size`. -/
def stubLZ4 : LZ4Lib where
  compress := fun p _ => if p = [7, 7, 7, 7, 7, 7, 7, 7] then [2] else 1 :: p
  decompress := fun q m =>
    if q = [2] then (if 8 ≤ m then some ([7, 7, 7, 7, 7, 7, 7, 7]) else none)
    else if q.head? = some 1 then
      (if q.tail.length ≤ m then some q.tail else none)
    else none

/-- The stub lz4 library round-trips every packet that fits in `max_size`. -/
theorem stubLZ4_roundtrip (m : Nat) (p : Bytes) (acc : Nat)
    (h : p.length ≤ m) :
    stubLZ4.decompress (stubLZ4.compress p acc) m = some p := by
  by_cases hp : p = [7, 7, 7, 7, 7, 7, 7, 7]
  · subst hp
    have h8 : 8 ≤ m := by simpa using h
    simp [stubLZ4, h8]
  · have hne : (1 :: p) ≠ [2] := by simp
    simp [stubLZ4, hp, hne, h]

/-- Stub zlib library: compression is the identity and `decompressObj`
returns the input with an empty unconsumed tail when it fits in
`max_length`, truncating with a non-empty tail otherwise. -/
def cappedZlib : ZlibLib where
  compress := fun p _ => p
  decompressObj := fun q m =>
    if q.length ≤ m then some (q, []) else some (q.take m, [1])

/-- The stub zlib library round-trips every packet that fits. -/
theorem cappedZlib_roundtrip (m : Nat) (p : Bytes) (lvl : Nat)
    (h : p.length ≤ m) :
    cappedZlib.decompressObj (cappedZlib.compress p lvl) m = some (p, []) := by
  simp [cappedZlib, h]

/-- The stub zlib library never emits more than `max_length` bytes. -/
theorem cappedZlib_capped (d : Bytes) (m : Nat) (pr : Bytes × Bytes)
    (h : cappedZlib.decompressObj d m = some pr) : pr.1.length ≤ m := by
  unfold cappedZlib at h
  dsimp at h
  split at h
  · cases h; simpa using by assumption
  · cases h; simp

/-- Stub lz4 library whose decompression is the identity capped at
`max_size`. -/
def cappedLZ4 : LZ4Lib where
  compress := fun p _ => p
  decompress := fun q m => if q.length ≤ m then some q else none

/-- The capped stub lz4 library never emits more than `max_size` bytes. -/
theorem cappedLZ4_capped (d : Bytes) (m : Nat) (w : Bytes)
    (h : cappedLZ4.decompress d m = some w) : w.length ≤ m := by
  unfold cappedLZ4 at h
  dsimp at h
  split at h
  · cases h; assumption
  · cases h

/-- Stub brotli library whose decompression is the identity capped at `m`. -/
def cappedBrotli (m : Nat) : BrotliLib where
  compress := fun p _ => p
  decompress := fun q => if q.length ≤ m then some q else none

/-- The capped stub brotli library round-trips packets that fit in `m`. -/
theorem cappedBrotli_roundtrip (m : Nat) (p : Bytes) (q : Nat)
    (h : p.length ≤ m) :
    (cappedBrotli m).decompress ((cappedBrotli m).compress p q) = some p := by
  simp [cappedBrotli, h]

/-- The capped stub brotli library never emits more than `m` bytes. -/
theorem cappedBrotli_capped (m : Nat) (d w : Bytes)
    (h : (cappedBrotli m).decompress d = some w) : w.length ≤ m := by
  unfold cappedBrotli at h
  dsimp at h
  split at h
  · cases h; assumption
  · cases h

/-- A stub zlib library whose `decompressObj` always reports a non-empty
unconsumed tail, as happens when `max_length` cut decompression short. -/
def trailingZlib : ZlibLib where
  compress := fun p _ => p
  decompressObj := fun _ _ => some ([0], [1])

/-- A stub plain-brotli library: its `decompress` takes no size bound (the
plain `brotli` module exposes none) and legitimately expands its input to
five bytes. -/
def bombBrotli : BrotliLib where
  compress := fun p _ => p
  decompress := fun _ => some ([0, 0, 0, 0, 0])

/-! The claim theorems. -/

/-- C2 counterexample: the exception raised by `compressed_wrapper` for
oversized input does not carry the actual size and the limit: with
`MIN_COMPRESS_SIZE = 0`, `MAX_DECOMPRESSED_SIZE = 2` and a 3-byte input, it
carries the megabyte counts `0` and `0`, not `3` and `2`. -/
theorem C2_counterexample :
    compressed_wrapper 0 2 [] (fun _ => false) 0 "x" [0, 0, 0] 5 true =
      .error (.payloadTooLarge 0 0) ∧
    CompressionError.payloadTooLarge 0 0 ≠ .payloadTooLarge 3 2 :=
  ⟨rfl, by decide⟩

/-- C2 (amended): for input longer than `MAX_DECOMPRESSED_SIZE`,
`compressed_wrapper` fails with the too-large exception carrying the size
and the limit floor-divided into megabytes, and this happens uniformly in
the registry, the requested algorithms and the remaining arguments, so no
backend's compress function is ever consulted. -/
theorem C2_too_large (mcs mds : Nat) (R : Registry) (req : String → Bool)
    (ms : Nat) (datatype : String) (data : Bytes) (level : Nat) (ci : Bool)
    (hconf : mcs < mds) (h : data.length > mds) :
    compressed_wrapper mcs mds R req ms datatype data level ci =
      .error (.payloadTooLarge (data.length / 1024 / 1024)
        (mds / 1024 / 1024)) := by
  have hA : ¬(data.length ≤ mcs) := by omega
  simp [compressed_wrapper, hA, h]

/-- C2 witness: the amended theorem evaluated at a concrete oversized
input. -/
theorem C2_too_large_witness :
    compressed_wrapper 0 2 [] (fun _ => false) 0 "x" [0, 0, 0] 5 true =
      .error (.payloadTooLarge 0 0) :=
  C2_too_large 0 2 [] (fun _ => false) 0 "x" [0, 0, 0] 5 true (by decide)
    (by decide)

/-- C3 counterexample: the brotli decompress path does not always enforce
`MAX_DECOMPRESSED_SIZE`.  `init_brotli` registers the library's `decompress`
unchanged and never passes it a size bound, and the plain `brotli` fallback
module accepts none, so for an intended ceiling of 4 bytes a conforming
brotli library expanding its input to 5 bytes makes the registered backend
return an oversized result instead of an error. -/
theorem C3_counterexample :
    decompress_by_name [("brotli", init_brotli bombBrotli)] [0] "brotli" =
      .ok [0, 0, 0, 0, 0] ∧
    4 < ([0, 0, 0, 0, 0] : Bytes).length :=
  ⟨rfl, by decide⟩

/-- C3 (amended): the lz4 path enforces `MAX_DECOMPRESSED_SIZE` by passing
it to the library as `max_size`, and the zlib path by capping
`decompressobj` output at it, so whenever those libraries honour their
size-bound arguments the registered descriptors never return more than
`MAX_DECOMPRESSED_SIZE` bytes; the brotli path returns at most
`MAX_DECOMPRESSED_SIZE` bytes only when the registered brotli decompressor
itself enforces that bound (as the internal xpra decompressor does, but the
plain-brotli fallback does not). -/
theorem C3_size_ceiling (mds : Nat) (L : LZ4Lib) (Z : ZlibLib) (B : BrotliLib)
    (hL : ∀ d m w, L.decompress d m = some w → w.length ≤ m)
    (hZ : ∀ d m pr, Z.decompressObj d m = some pr → pr.1.length ≤ m)
    (hB : ∀ d w, B.decompress d = some w → w.length ≤ mds)
    (data v : Bytes) :
    ((init_lz4 L mds).decompress data = some v → v.length ≤ mds) ∧
    ((init_zlib Z mds).decompress data = some v → v.length ≤ mds) ∧
    ((init_brotli B).decompress data = some v → v.length ≤ mds) := by
  refine ⟨fun h => hL _ _ _ h, fun h => ?_, fun h => hB _ _ h⟩
  have h' : zlib_decompress Z mds data = some v := h
  unfold zlib_decompress at h'
  rcases hobj : Z.decompressObj data mds with _ | ⟨w, tail⟩
  · rw [hobj] at h'
    cases h'
  · rw [hobj] at h'
    dsimp only at h'
    split at h'
    · rcases h' with ⟨⟩
      exact hZ _ _ _ hobj
    · cases h'

/-- C3 witness: the amended theorem evaluated on capped stub libraries with
`MAX_DECOMPRESSED_SIZE = 2` and a 1-byte input. -/
theorem C3_size_ceiling_witness :
    ((init_lz4 cappedLZ4 2).decompress [0] = some [0] →
      ([0] : Bytes).length ≤ 2) ∧
    ((init_zlib cappedZlib 2).decompress [0] = some [0] →
      ([0] : Bytes).length ≤ 2) ∧
    ((init_brotli (cappedBrotli 2)).decompress [0] = some [0] →
      ([0] : Bytes).length ≤ 2) :=
  C3_size_ceiling 2 cappedLZ4 cappedZlib (cappedBrotli 2)
    (fun d m w h => cappedLZ4_capped d m w h)
    (fun d m pr h => cappedZlib_capped d m pr h)
    (fun d w h => cappedBrotli_capped 2 d w h)
    [0] [0]

/-- C8: whenever the zlib `decompressobj` call leaves a non-empty unconsumed
tail, `zlib_decompress` fails on the assertion instead of returning the
partial result, and `decompress_by_name` surfaces the failure as an error. -/
theorem C8_zlib_unconsumed_tail (Z : ZlibLib) (mds : Nat) (R : Registry)
    (data v tail : Bytes)
    (hobj : Z.decompressObj data mds = some (v, tail))
    (htail : tail ≠ [])
    (hreg : lookupCompression R "zlib" = some (init_zlib Z mds)) :
    zlib_decompress Z mds data = none ∧
    decompress_by_name R data "zlib" = .error (.decompressFailed "zlib") := by
  have h1 : zlib_decompress Z mds data = none := by
    unfold zlib_decompress
    rw [hobj]
    dsimp only
    rw [if_neg]
    simpa [List.isEmpty_iff] using htail
  have h2 : (init_zlib Z mds).decompress data = none := h1
  exact ⟨h1, by simp only [decompress_by_name, hreg, h2]⟩

/-- C8 witness: the theorem evaluated on a stub zlib library that reports a
non-empty unconsumed tail. -/
theorem C8_zlib_unconsumed_tail_witness :
    zlib_decompress trailingZlib 10 [5] = none ∧
    decompress_by_name [("zlib", init_zlib trailingZlib 10)] [5] "zlib" =
      .error (.decompressFailed "zlib") :=
  C8_zlib_unconsumed_tail trailingZlib 10
    [("zlib", init_zlib trailingZlib 10)] [5] [0] [1] rfl (by decide) rfl

/-- C9: for any algorithm name absent from the registry,
`decompress_by_name` fails with the codec-unavailable error naming the
algorithm; the result is determined by the lookup alone, before any
backend's decompress could run. -/
theorem C9_codec_unavailable (R : Registry) (data : Bytes) (algo : String)
    (h : lookupCompression R algo = none) :
    decompress_by_name R data algo = .error (.codecUnavailable algo) := by
  simp [decompress_by_name, h]

/-- C9 witness: with only zlib registered, asking for lz4 fails with the
codec-unavailable error. -/
theorem C9_codec_unavailable_witness :
    decompress_by_name [("zlib", init_zlib trailingZlib 10)] [0] "lz4" =
      .error (.codecUnavailable "lz4") :=
  C9_codec_unavailable [("zlib", init_zlib trailingZlib 10)] [0] "lz4" rfl

/-- C10: whenever `compressed_wrapper` returns the raw variant — size at or
below the threshold, no algorithm selected, or insufficient saving — the
payload's bytes are the input unchanged, its inline flag is the caller's,
and its datatype is the string "raw " prepended to the caller's datatype,
which is never equal to the caller's datatype itself. -/
theorem C10_raw_payload (mcs mds : Nat) (R : Registry) (req : String → Bool)
    (ms : Nat) (datatype : String) (data : Bytes) (level : Nat) (ci : Bool)
    (dt' : String) (d : Bytes) (ci' : Bool)
    (h : compressed_wrapper mcs mds R req ms datatype data level ci =
      .ok (.raw dt' d ci')) :
    dt' = "raw " ++ datatype ∧ d = data ∧ ci' = ci ∧ dt' ≠ datatype := by
  have hfields :
      (Except.ok (Payload.raw ("raw " ++ datatype) data ci) :
        Except CompressionError Payload) = .ok (.raw dt' d ci') →
      dt' = "raw " ++ datatype ∧ d = data ∧ ci' = ci := by
    intro hh
    injection hh with hh'
    injection hh' with e₁ e₂ e₃
    exact ⟨e₁.symm, e₂.symm, e₃.symm⟩
  have hraw : dt' = "raw " ++ datatype ∧ d = data ∧ ci' = ci := by
    unfold compressed_wrapper at h
    dsimp only at h
    by_cases h1 : data.length ≤ mcs
    · rw [if_pos h1] at h
      exact hfields h
    · rw [if_neg h1] at h
      by_cases h2 : data.length > mds
      · rw [if_pos h2] at h
        simp at h
      · rw [if_neg h2] at h
        rcases hsel : select_algo R req with _ | ⟨a, c⟩ <;> rw [hsel] at h
        · exact hfields h
        · dsimp only at h
          by_cases h3 : (c.compress data level).2.length ≥ data.length + ms
          · rw [if_pos h3] at h
            exact hfields h
          · rw [if_neg h3] at h
            simp at h
  refine ⟨hraw.1, hraw.2.1, hraw.2.2, ?_⟩
  rw [hraw.1]
  exact raw_datatype_ne datatype

/-- C10 witness: a below-threshold call returns the raw variant, whose
fields the theorem then characterizes. -/
theorem C10_raw_payload_witness :
    "raw x" = "raw " ++ "x" ∧ ([0] : Bytes) = [0] ∧ true = true ∧
      "raw x" ≠ "x" :=
  C10_raw_payload 10 100 [] (fun _ => false) 0 "x" [0] 5 true "raw x" [0]
    true rfl

/-- Modelled from the spec (for comparison with the source shims): the
generic-deflate level normalization, "clamp to [1, 9]". -/
def spec_deflate_clamp (level : Nat) : Nat :=
  if level < 1 then 1 else if level > 9 then 9 else level

/-- Modelled from the spec: the fast-block-codec stored level,
"tag stores min(15, level)". -/
def spec_lz4_stored (level : Nat) : Nat := min 15 level

/-- Modelled from the spec: the fast-block-codec internal speed parameter,
"max(0, 5 - level/3)" with integer division, computed in the integers. -/
def spec_lz4_accel (level : Nat) : Int := max 0 (5 - (level : Int) / 3)

/-- Modelled from the spec: the high-ratio-codec level normalization,
"clamp to 9 if input > 1 MiB, else clamp to 11". -/
def spec_brotli_clamp (inputLen level : Nat) : Nat :=
  if inputLen > 1024 * 1024 then (if level > 9 then 9 else level)
  else (if level > 11 then 11 else level)

/-- C4: each compress shim normalizes the level exactly as the spec's table
says: the zlib shim clamps into [1, 9] and passes the clamped level to the
library, the lz4 shim stores min(15, level) in the tag's low 4 bits and uses
speed parameter max(0, 5 - level/3) with integer division, and the brotli
shim clamps to 9 for inputs over 1 MiB and to 11 otherwise. -/
theorem C4_level_normalization (packet : Bytes) (level : Nat) :
    (∀ Z : ZlibLib, zlib_compress Z packet level =
      (spec_deflate_clamp level + ZLIB_FLAG,
        Z.compress packet (spec_deflate_clamp level))) ∧
    1 ≤ spec_deflate_clamp level ∧ spec_deflate_clamp level ≤ 9 ∧
    (∀ L : LZ4Lib, lz4_compress L packet level =
      (spec_lz4_stored level ||| LZ4_FLAG,
        L.compress packet (spec_lz4_accel level).toNat)) ∧
    (spec_lz4_stored level ||| LZ4_FLAG) &&& 15 = spec_lz4_stored level ∧
    (∀ B : BrotliLib, brotli_compress_shim B packet level =
      (spec_brotli_clamp packet.length level ||| BROTLI_FLAG,
        B.compress packet (spec_brotli_clamp packet.length level))) := by
  have hz : min 9 (max 1 level) = spec_deflate_clamp level := by
    unfold spec_deflate_clamp
    split_ifs <;> omega
  have hacc : max 0 (5 - level / 3) = (spec_lz4_accel level).toNat := by
    rw [Nat.zero_max]
    unfold spec_lz4_accel
    have h3 : ((level : Int) / 3) = ((level / 3 : Nat) : Int) := by omega
    rw [h3, Int.max_def]
    split <;> omega
  have hbro : ∀ il,
      (if il > 1024 * 1024 then min 9 level else min 11 level) =
        spec_brotli_clamp il level := by
    intro il
    unfold spec_brotli_clamp
    split_ifs <;> omega
  refine ⟨fun Z => ?_, ?_, ?_, fun L => ?_, ?_, fun B => ?_⟩
  · simp only [zlib_compress, hz]
  · unfold spec_deflate_clamp
    split_ifs <;> omega
  · unfold spec_deflate_clamp
    split_ifs <;> omega
  · simp only [lz4_compress, spec_lz4_stored, hacc]
  · exact (lz4_tag_bits (spec_lz4_stored level) (min_le_left _ _)).2.1
  · simp only [brotli_compress_shim, hbro]

/-- C5 counterexample: with levels only bounded to 4 bits (0-15), the flag
round trip fails: the zlib shim at level 0 (a value in 0-15) produces the
tag 1, which decodes to algorithm "zlib" but to level 1, not 0. -/
theorem C5_counterexample :
    (0 : Nat) ≤ 15 ∧
    (zlib_compress cappedZlib [0] 0).1 = 1 ∧
    get_compression_type (zlib_compress cappedZlib [0] 0).1 = "zlib" ∧
    decode_level (zlib_compress cappedZlib [0] 0).1 ≠ 0 := by
  decide

/-- C5 (amended): for every algorithm and level within that algorithm's
valid clamp range (0-15 for the lz4 codec, 1-9 for zlib, and for brotli
0-9 when the packet exceeds 1 MiB and 0-11 otherwise), decoding the tag
produced by the shim — algorithm via `get_compression_type`, which tests
the lz4 flag bit first, then the brotli flag bit, defaulting to zlib, and
level via the low 4 bits — yields back the same algorithm and level. -/
theorem C5_flag_round_trip (L : LZ4Lib) (Z : ZlibLib) (B : BrotliLib)
    (packet : Bytes) (level : Nat) :
    (level ≤ 15 →
      get_compression_type (lz4_compress L packet level).1 = "lz4" ∧
      decode_level (lz4_compress L packet level).1 = level) ∧
    (1 ≤ level → level ≤ 9 →
      get_compression_type (zlib_compress Z packet level).1 = "zlib" ∧
      decode_level (zlib_compress Z packet level).1 = level) ∧
    (level ≤ (if packet.length > 1024 * 1024 then 9 else 11) →
      get_compression_type (brotli_compress_shim B packet level).1 =
        "brotli" ∧
      decode_level (brotli_compress_shim B packet level).1 = level) := by
  refine ⟨fun h15 => ?_, fun hl1 hl9 => ?_, fun hb => ?_⟩
  · have hmin : min 15 level = level := min_eq_right h15
    have ht := lz4_tag_bits level h15
    have htag : (lz4_compress L packet level).1 = level ||| 16 := by
      simp only [lz4_compress, LZ4_FLAG, hmin]
    rw [htag]
    exact ⟨by simp [get_compression_type, LZ4_FLAG, ht.1], ht.2.1⟩
  · have hmm : min 9 (max 1 level) = level := by omega
    have ht := zlib_tag_bits level (by omega)
    have htag : (zlib_compress Z packet level).1 = level := by
      simp only [zlib_compress, ZLIB_FLAG, hmm, Nat.add_zero]
    rw [htag]
    exact ⟨by simp [get_compression_type, LZ4_FLAG, BROTLI_FLAG, ht.1,
      ht.2.1], ht.2.2⟩
  · by_cases hlen : packet.length > 1024 * 1024
    · rw [if_pos hlen] at hb
      have ht := brotli_tag_bits level (by omega)
      have hmin : min 9 level = level := min_eq_right hb
      have htag : (brotli_compress_shim B packet level).1 = level ||| 64 := by
        simp only [brotli_compress_shim, BROTLI_FLAG, if_pos hlen, hmin]
      rw [htag]
      exact ⟨by simp [get_compression_type, LZ4_FLAG, BROTLI_FLAG, ht.1,
        ht.2.1], ht.2.2⟩
    · rw [if_neg hlen] at hb
      have ht := brotli_tag_bits level (by omega)
      have hmin : min 11 level = level := min_eq_right hb
      have htag : (brotli_compress_shim B packet level).1 = level ||| 64 := by
        simp only [brotli_compress_shim, BROTLI_FLAG, if_neg hlen, hmin]
      rw [htag]
      exact ⟨by simp [get_compression_type, LZ4_FLAG, BROTLI_FLAG, ht.1,
        ht.2.1], ht.2.2⟩

/-- C5 witness: the amended round trip evaluated for the lz4 shim at
level 5. -/
theorem C5_flag_round_trip_witness :
    get_compression_type (lz4_compress cappedLZ4 [0] 5).1 = "lz4" ∧
    decode_level (lz4_compress cappedLZ4 [0] 5).1 = 5 :=
  (C5_flag_round_trip cappedLZ4 cappedZlib (cappedBrotli 2) [0] 5).1
    (by decide)

/-- C6: the performance-preference order excludes the "none" pseudo-backend;
if no name in it is both requested and registered, `compressed_wrapper`
returns the raw payload without error; and whenever `a` is the first name in
that order that is both requested and registered, the selection picks `a`
and the wrapper proceeds with `a`'s descriptor. -/
theorem C6_algorithm_selection (mcs mds : Nat) (R : Registry)
    (req : String → Bool) (ms : Nat) (datatype : String) (data : Bytes)
    (level : Nat) (ci : Bool)
    (h1 : mcs < data.length) (h2 : data.length ≤ mds) :
    "none" ∉ PERFORMANCE_COMPRESSION ∧
    ((∀ x ∈ PERFORMANCE_COMPRESSION,
        ¬(req x = true ∧ (lookupCompression R x).isSome = true)) →
      compressed_wrapper mcs mds R req ms datatype data level ci =
        .ok (.raw ("raw " ++ datatype) data ci)) ∧
    (∀ l₁ a l₂, PERFORMANCE_COMPRESSION = l₁ ++ a :: l₂ →
      req a = true →
      ∀ c, lookupCompression R a = some c →
      (∀ b ∈ l₁, ¬(req b = true ∧ (lookupCompression R b).isSome = true)) →
      select_algo R req = some (a, c) ∧
      compressed_wrapper mcs mds R req ms datatype data level ci =
        (if (c.compress data level).2.length ≥ data.length + ms then
          .ok (.raw ("raw " ++ datatype) data ci)
        else
          .ok (.levelCompressed datatype (c.compress data level).2
            (c.compress data level).1 a ci))) := by
  have hle : ¬(data.length ≤ mcs) := by omega
  have hgt : ¬(data.length > mds) := by omega
  refine ⟨by decide, fun hall => ?_, fun l₁ a l₂ heq hreq c hc hpre => ?_⟩
  · have hsel : select_algo R req = none :=
      findSome_sel_none R req PERFORMANCE_COMPRESSION hall
    simp only [compressed_wrapper]
    rw [if_neg hle, if_neg hgt, hsel]
  · have hsel : select_algo R req = some (a, c) := by
      unfold select_algo
      rw [heq]
      exact findSome_sel_first R req l₁ a l₂ hreq c hc hpre
    refine ⟨hsel, ?_⟩
    simp only [compressed_wrapper]
    rw [if_neg hle, if_neg hgt, hsel]

/-- A one-entry registry holding only the zlib descriptor over the capped
stub library, used to evaluate the selection and saving-gate theorems. -/
def wRegZ : Registry := [("zlib", init_zlib cappedZlib 100)]

/-- C6 witness: with only zlib registered and requested, "zlib" is selected
even though it is second in the preference order, and the wrapper proceeds
with its descriptor. -/
theorem C6_algorithm_selection_witness :
    select_algo wRegZ (fun x => x == "zlib") =
      some ("zlib", init_zlib cappedZlib 100) ∧
    compressed_wrapper 0 100 wRegZ (fun x => x == "zlib") 0 "x" [0, 0] 5
        true =
      (if ((init_zlib cappedZlib 100).compress [0, 0] 5).2.length ≥
          ([0, 0] : Bytes).length + 0 then
        .ok (.raw ("raw " ++ "x") [0, 0] true)
      else
        .ok (.levelCompressed "x"
          ((init_zlib cappedZlib 100).compress [0, 0] 5).2
          ((init_zlib cappedZlib 100).compress [0, 0] 5).1 "zlib" true)) :=
  (C6_algorithm_selection 0 100 wRegZ (fun x => x == "zlib") 0 "x" [0, 0] 5
    true (by decide) (by decide)).2.2 ["lz4"] "zlib" ["brotli"] rfl rfl
    (init_zlib cappedZlib 100) rfl (by decide)

/-- C7: once an algorithm is selected, the wrapper keeps the compressed
result exactly when it is smaller than the input plus `min_saving`: at or
above that bound it returns the raw payload, below it the level-compressed
payload carrying the datatype, the compressed bytes, the tag returned by the
backend (stored in the level slot), the algorithm name and the inline
flag. -/
theorem C7_min_saving_gate (mcs mds : Nat) (R : Registry)
    (req : String → Bool) (ms : Nat) (datatype : String) (data : Bytes)
    (level : Nat) (ci : Bool) (a : String) (c : Compression)
    (hsel : select_algo R req = some (a, c))
    (h1 : mcs < data.length) (h2 : data.length ≤ mds) :
    ((c.compress data level).2.length ≥ data.length + ms →
      compressed_wrapper mcs mds R req ms datatype data level ci =
        .ok (.raw ("raw " ++ datatype) data ci)) ∧
    ((c.compress data level).2.length < data.length + ms →
      compressed_wrapper mcs mds R req ms datatype data level ci =
        .ok (.levelCompressed datatype (c.compress data level).2
          (c.compress data level).1 a ci)) := by
  have hle : ¬(data.length ≤ mcs) := by omega
  have hgt : ¬(data.length > mds) := by omega
  refine ⟨fun hge => ?_, fun hlt => ?_⟩
  · simp only [compressed_wrapper]
    rw [if_neg hle, if_neg hgt, hsel]
    dsimp only
    rw [if_pos hge]
  · simp only [compressed_wrapper]
    rw [if_neg hle, if_neg hgt, hsel]
    dsimp only
    rw [if_neg (by omega)]

/-- C7 witness: the saving gate evaluated on the stub zlib backend, whose
identity compression yields no saving, so the wrapper answers raw. -/
theorem C7_min_saving_gate_witness :
    compressed_wrapper 0 100 wRegZ (fun x => x == "zlib") 0 "x" [0, 0] 5
        true = .ok (.raw ("raw " ++ "x") [0, 0] true) :=
  (C7_min_saving_gate 0 100 wRegZ (fun x => x == "zlib") 0 "x" [0, 0] 5 true
    "zlib" (init_zlib cappedZlib 100) rfl (by decide) (by decide)).1
    (by decide)

/-- C1: for a registered algorithm `A` with level in its valid clamp range,
requested algorithms `{A}`, and input strictly longer than
`MIN_COMPRESS_SIZE` and at most `MAX_DECOMPRESSED_SIZE`, the wrapper
succeeds, and feeding the resulting payload's bytes and tag back through
`decompress` returns exactly the input (when the payload is raw, its bytes
already are the input).  The three external libraries are assumed to invert
their own compression within the size bound. -/
theorem C1_round_trip (mcs mds : Nat) (R : Registry) (L : LZ4Lib)
    (Z : ZlibLib) (B : BrotliLib) (A : String) (datatype : String)
    (data : Bytes) (level : Nat) (ci : Bool)
    (hL : ∀ p acc, p.length ≤ mds →
      L.decompress (L.compress p acc) mds = some p)
    (hZ : ∀ p lvl, p.length ≤ mds →
      Z.decompressObj (Z.compress p lvl) mds = some (p, []))
    (hB : ∀ p q, p.length ≤ mds → B.decompress (B.compress p q) = some p)
    (hA : (A = "lz4" ∧ lookupCompression R A = some (init_lz4 L mds) ∧
            level ≤ 15) ∨
          (A = "zlib" ∧ lookupCompression R A = some (init_zlib Z mds) ∧
            1 ≤ level ∧ level ≤ 9) ∨
          (A = "brotli" ∧ lookupCompression R A = some (init_brotli B) ∧
            level ≤ (if data.length > 1024 * 1024 then 9 else 11)))
    (h1 : mcs < data.length) (h2 : data.length ≤ mds) :
    ∃ p, compressed_wrapper mcs mds R (fun x => x == A) 0 datatype data
        level ci = .ok p ∧
      (∀ dt d ci', p = .raw dt d ci' → d = data) ∧
      (∀ dt cd tg al ci', p = .levelCompressed dt cd tg al ci' →
        decompress R cd tg = .ok data) := by
  have hle : ¬(data.length ≤ mcs) := by omega
  have hgt : ¬(data.length > mds) := by omega
  rcases hA with ⟨hA1, hlook, hlev⟩ | ⟨hA1, hlook, hlev1, hlev9⟩ |
    ⟨hA1, hlook, hlev⟩
  · -- lz4
    subst hA1
    have hsel : select_algo R (fun x => x == "lz4") =
        some ("lz4", init_lz4 L mds) := by
      have e1 : ("lz4" == "lz4") = true := rfl
      simp [select_algo, PERFORMANCE_COMPRESSION, List.findSome?_cons, e1,
        hlook]
    have hmin : min 15 level = level := min_eq_right hlev
    have hbits := lz4_tag_bits level hlev
    have hcomp : (init_lz4 L mds).compress data level =
        (level ||| 16, L.compress data (max 0 (5 - level / 3))) := by
      simp only [init_lz4, lz4_compress, LZ4_FLAG, hmin]
    have hdec : decompress R (L.compress data (max 0 (5 - level / 3)))
        (level ||| 16) = .ok data := by
      unfold decompress
      dsimp only [LZ4_FLAG, BROTLI_FLAG]
      rw [if_pos hbits.1]
      unfold decompress_by_name
      rw [hlook]
      dsimp only
      have hinv : (init_lz4 L mds).decompress
          (L.compress data (max 0 (5 - level / 3))) = some data :=
        hL data (max 0 (5 - level / 3)) h2
      rw [hinv]
    by_cases hbig :
        (L.compress data (max 0 (5 - level / 3))).length ≥ data.length + 0
    · refine ⟨.raw ("raw " ++ datatype) data ci, ?_, ?_, ?_⟩
      · simp only [compressed_wrapper]
        rw [if_neg hle, if_neg hgt, hsel]
        dsimp only
        rw [hcomp]
        dsimp only
        rw [if_pos hbig]
      · intro dt d ci' hp
        cases hp
        rfl
      · intro dt cd tg al ci' hp
        cases hp
    · refine ⟨.levelCompressed datatype
        (L.compress data (max 0 (5 - level / 3))) (level ||| 16) "lz4" ci,
        ?_, ?_, ?_⟩
      · simp only [compressed_wrapper]
        rw [if_neg hle, if_neg hgt, hsel]
        dsimp only
        rw [hcomp]
        dsimp only
        rw [if_neg hbig]
      · intro dt d ci' hp
        cases hp
      · intro dt cd tg al ci' hp
        cases hp
        exact hdec
  · -- zlib
    subst hA1
    have hsel : select_algo R (fun x => x == "zlib") =
        some ("zlib", init_zlib Z mds) := by
      have e1 : ("lz4" == "zlib") = false := rfl
      have e2 : ("zlib" == "zlib") = true := rfl
      simp [select_algo, PERFORMANCE_COMPRESSION, List.findSome?_cons, e1,
        e2, hlook]
    have hmm : min 9 (max 1 level) = level := by omega
    have hbits := zlib_tag_bits level (by omega)
    have hcomp : (init_zlib Z mds).compress data level =
        (level, Z.compress data level) := by
      simp only [init_zlib, zlib_compress, ZLIB_FLAG, hmm, Nat.add_zero]
    have hdec : decompress R (Z.compress data level) level = .ok data := by
      unfold decompress
      dsimp only [LZ4_FLAG, BROTLI_FLAG]
      rw [if_neg (by simp [hbits.1]), if_neg (by simp [hbits.2.1])]
      unfold decompress_by_name
      rw [hlook]
      dsimp only
      have hinv : (init_zlib Z mds).decompress (Z.compress data level) =
          some data := by
        show zlib_decompress Z mds (Z.compress data level) = some data
        unfold zlib_decompress
        rw [hZ data level h2]
        rfl
      rw [hinv]
    by_cases hbig : (Z.compress data level).length ≥ data.length + 0
    · refine ⟨.raw ("raw " ++ datatype) data ci, ?_, ?_, ?_⟩
      · simp only [compressed_wrapper]
        rw [if_neg hle, if_neg hgt, hsel]
        dsimp only
        rw [hcomp]
        dsimp only
        rw [if_pos hbig]
      · intro dt d ci' hp
        cases hp
        rfl
      · intro dt cd tg al ci' hp
        cases hp
    · refine ⟨.levelCompressed datatype (Z.compress data level) level
        "zlib" ci, ?_, ?_, ?_⟩
      · simp only [compressed_wrapper]
        rw [if_neg hle, if_neg hgt, hsel]
        dsimp only
        rw [hcomp]
        dsimp only
        rw [if_neg hbig]
      · intro dt d ci' hp
        cases hp
      · intro dt cd tg al ci' hp
        cases hp
        exact hdec
  · -- brotli
    subst hA1
    have hsel : select_algo R (fun x => x == "brotli") =
        some ("brotli", init_brotli B) := by
      have e1 : ("lz4" == "brotli") = false := rfl
      have e2 : ("zlib" == "brotli") = false := rfl
      have e3 : ("brotli" == "brotli") = true := rfl
      simp [select_algo, PERFORMANCE_COMPRESSION, List.findSome?_cons, e1,
        e2, e3, hlook]
    have h15 : level ≤ 15 := by
      rcases le_or_lt data.length (1024 * 1024) with hc | hc
      · rw [if_neg (by omega)] at hlev
        omega
      · rw [if_pos (by omega)] at hlev
        omega
    have hbits := brotli_tag_bits level h15
    have hclamp : (if data.length > 1024 * 1024 then min 9 level
        else min 11 level) = level := by
      rcases le_or_lt data.length (1024 * 1024) with hc | hc
      · rw [if_neg (by omega)] at hlev ⊢
        omega
      · rw [if_pos (by omega)] at hlev ⊢
        omega
    have hcomp : (init_brotli B).compress data level =
        (level ||| 64, B.compress data level) := by
      simp only [init_brotli, brotli_compress_shim, BROTLI_FLAG, hclamp]
    have hdec : decompress R (B.compress data level) (level ||| 64) =
        .ok data := by
      unfold decompress
      dsimp only [LZ4_FLAG, BROTLI_FLAG]
      rw [if_neg (by simp [hbits.1]), if_pos hbits.2.1]
      unfold decompress_by_name
      rw [hlook]
      dsimp only
      have hinv : (init_brotli B).decompress (B.compress data level) =
          some data := hB data level h2
      rw [hinv]
    by_cases hbig : (B.compress data level).length ≥ data.length + 0
    · refine ⟨.raw ("raw " ++ datatype) data ci, ?_, ?_, ?_⟩
      · simp only [compressed_wrapper]
        rw [if_neg hle, if_neg hgt, hsel]
        dsimp only
        rw [hcomp]
        dsimp only
        rw [if_pos hbig]
      · intro dt d ci' hp
        cases hp
        rfl
      · intro dt cd tg al ci' hp
        cases hp
    · refine ⟨.levelCompressed datatype (B.compress data level)
        (level ||| 64) "brotli" ci, ?_, ?_, ?_⟩
      · simp only [compressed_wrapper]
        rw [if_neg hle, if_neg hgt, hsel]
        dsimp only
        rw [hcomp]
        dsimp only
        rw [if_neg hbig]
      · intro dt d ci' hp
        cases hp
      · intro dt cd tg al ci' hp
        cases hp
        exact hdec

/-- C1 witness: the round trip evaluated on the stub lz4 library, whose toy
compression shrinks the 8-byte packet of sevens, so the wrapper takes the
level-compressed path. -/
theorem C1_round_trip_witness :
    ∃ p, compressed_wrapper 2 100 [("lz4", init_lz4 stubLZ4 100)]
        (fun x => x == "lz4") 0 "x" [7, 7, 7, 7, 7, 7, 7, 7] 5 true =
        .ok p ∧
      (∀ dt d ci', p = .raw dt d ci' → d = [7, 7, 7, 7, 7, 7, 7, 7]) ∧
      (∀ dt cd tg al ci', p = .levelCompressed dt cd tg al ci' →
        decompress [("lz4", init_lz4 stubLZ4 100)] cd tg =
          .ok [7, 7, 7, 7, 7, 7, 7, 7]) :=
  C1_round_trip 2 100 [("lz4", init_lz4 stubLZ4 100)] stubLZ4 cappedZlib
    (cappedBrotli 100) "lz4" "x" [7, 7, 7, 7, 7, 7, 7, 7] 5 true
    (fun p acc h => stubLZ4_roundtrip 100 p acc h)
    (fun p lvl h => cappedZlib_roundtrip 100 p lvl h)
    (fun p q h => cappedBrotli_roundtrip 100 p q h)
    (Or.inl ⟨rfl, rfl, by decide⟩) (by decide) (by decide)

end Xpra
